import Mathlib

/-!
Verification of the residual-block module
(`distar/ctools/torch_utils/network/res_block.py`).

Tensors are shallowly embedded as nested lists of integers:
a 2-D tensor `[B, C]` is a list of `B` rows of length `C`, and a 4-D
tensor `[B, C, H, W]` is a list of `B` samples, each a list of `C`
channel matrices of size `H × W`.

The external collaborators `conv2d_block`, `fc_block` and
`build_normalization` are imported by the module but their code is not
part of this excerpt; they are modelled from the specification (a
convolution / linear transform followed by an optional normalization
and an optional activation), with the normalization factory kept
abstract as a parameter.
-/

namespace ResBlockSpec

abbrev Mat := List (List ℤ)
abbrev T3 := List Mat
abbrev T4 := List T3

/-- Shape predicate for a matrix: `h` rows, each of length `w`. -/
def Mat.hasShape (m : Mat) (h w : ℕ) : Prop :=
  m.length = h ∧ ∀ r ∈ m, r.length = w

/-- Shape predicate for a 3-D tensor: `c` channel matrices of size `h × w`. -/
def T3.hasShape (t : T3) (c h w : ℕ) : Prop :=
  t.length = c ∧ ∀ m ∈ t, Mat.hasShape m h w

/-- Shape predicate for a 4-D tensor `[b, c, h, w]`. -/
def T4.hasShape (t : T4) (b c h w : ℕ) : Prop :=
  t.length = b ∧ ∀ s ∈ t, T3.hasShape s c h w

instance (m : Mat) (h w : ℕ) : Decidable (Mat.hasShape m h w) := by
  unfold Mat.hasShape; infer_instance

instance (t : T3) (c h w : ℕ) : Decidable (T3.hasShape t c h w) := by
  unfold T3.hasShape; infer_instance

instance (t : T4) (b c h w : ℕ) : Decidable (T4.hasShape t b c h w) := by
  unfold T4.hasShape; infer_instance

/-- Element of a matrix at integer coordinates, zero outside the bounds
(used to realise zero padding of the convolution). -/
def Mat.at (m : Mat) (i j : ℤ) : ℤ :=
  if hi : 0 ≤ i ∧ i < m.length then
    let row := m.get ⟨i.toNat, by omega⟩
    if hj : 0 ≤ j ∧ j < row.length then row.get ⟨j.toNat, by omega⟩ else 0
  else 0

/-- Elementwise addition of 2-D tensors (the `x + residual` of the
fully-connected blocks; shapes are equal in every use here). -/
def add2 (a b : Mat) : Mat :=
  List.zipWith (fun r s => List.zipWith (· + ·) r s) a b

/-- Elementwise addition of 4-D tensors (the `x + residual` of the
convolutional block). -/
def add4 (a b : T4) : T4 :=
  List.zipWith (fun p q => List.zipWith add2 p q) a b

/-- Weights of a 2-D convolution: `weight[o][c][kh][kw]`. -/
abbrev ConvWeight := List (List Mat)

/-- Modelled from the spec: the raw 2-D convolution underlying the
convolution-block primitive, on one sample (a `C × H × W` stack of
channel matrices), with kernel size `k`, stride `s`, padding `p`.
Output spatial size follows the standard formula
`(H + 2p - k) / s + 1`; out-of-range reads are zero (zero padding). -/
def conv2dSample (k s p outCh : ℕ) (w : ConvWeight) (bias : List ℤ) (x : T3) : T3 :=
  let H := (x.headD []).length
  let W := ((x.headD []).headD []).length
  let outH := (((H : ℤ) + 2 * p - k) / s + 1).toNat
  let outW := (((W : ℤ) + 2 * p - k) / s + 1).toNat
  (List.range outCh).map fun o =>
    (List.range outH).map fun (i : ℕ) =>
      (List.range outW).map fun (j : ℕ) =>
        bias.getD o 0 +
          ((List.range x.length).map fun c =>
            ((List.range k).map fun kh =>
              ((List.range k).map fun kw =>
                (((w.getD o []).getD c []).getD kh []).getD kw 0 *
                  Mat.at (x.getD c [])
                    ((i : ℤ) * s + kh - p) ((j : ℤ) * s + kw - p)).sum).sum).sum

/-- Modelled from the spec: the raw 2-D convolution on a batched
`[B, C, H, W]` tensor, applied sample by sample. -/
def conv2d (k s p outCh : ℕ) (w : ConvWeight) (bias : List ℤ) (x : T4) : T4 :=
  x.map (conv2dSample k s p outCh w bias)

/-- A constructed convolution-block primitive: the convolution
parameters together with the optional normalization operator and the
optional activation chosen at construction time. -/
structure Conv2dBlock where
  kernel : ℕ
  stride : ℕ
  padding : ℕ
  outChannels : ℕ
  weight : ConvWeight
  bias : List ℤ
  norm : Option (T4 → T4)
  activation : Option (T4 → T4)

/-- Modelled from the spec: `conv2d_block` (external collaborator, code
not in this excerpt) builds one callable unit that applies a 2-D
convolution, then the optional normalization obtained from the
normalization factory `bn`, then the optional activation. -/
def conv2d_block (_inCh outCh k s p : ℕ) (activation : Option (T4 → T4))
    (normType : Option String) (w : ConvWeight) (bias : List ℤ)
    (bn : String → ℕ → T4 → T4) : Conv2dBlock :=
  { kernel := k, stride := s, padding := p, outChannels := outCh,
    weight := w, bias := bias,
    norm := normType.map (fun t => bn t outCh),
    activation := activation }

/-- Modelled from the spec: invoking a convolution-block primitive:
convolution, then optional normalization, then optional activation. -/
def Conv2dBlock.apply (cb : Conv2dBlock) (x : T4) : T4 :=
  let y := conv2d cb.kernel cb.stride cb.padding cb.outChannels cb.weight cb.bias x
  let y := (cb.norm.getD id) y
  (cb.activation.getD id) y

/-- Modelled from the spec: the raw linear transform underlying the
fully-connected block primitive, on a batched `[B, C]` tensor:
`out[b][o] = bias[o] + dot(weight[o], x[b])`. -/
def linear (outCh : ℕ) (w : Mat) (bias : List ℤ) (x : Mat) : Mat :=
  x.map fun row =>
    (List.range outCh).map fun o =>
      bias.getD o 0 + (List.zipWith (· * ·) (w.getD o []) row).sum

/-- A constructed fully-connected block primitive: the linear-transform
parameters together with the optional normalization operator and the
optional activation chosen at construction time. -/
structure FcBlock where
  outChannels : ℕ
  weight : Mat
  bias : List ℤ
  norm : Option (Mat → Mat)
  activation : Option (Mat → Mat)

/-- Modelled from the spec: `fc_block` (external collaborator, code not
in this excerpt) builds one callable unit that applies a linear
transform, then the optional normalization obtained from the
normalization factory `bn`, then the optional activation. -/
def fc_block (_inCh outCh : ℕ) (activation : Option (Mat → Mat))
    (normType : Option String) (w : Mat) (bias : List ℤ)
    (bn : String → ℕ → Mat → Mat) : FcBlock :=
  { outChannels := outCh, weight := w, bias := bias,
    norm := normType.map (fun t => bn t outCh),
    activation := activation }

/-- Modelled from the spec: invoking a fully-connected block primitive:
linear transform, then optional normalization, then optional activation. -/
def FcBlock.apply (fb : FcBlock) (x : Mat) : Mat :=
  let y := linear fb.outChannels fb.weight fb.bias x
  let y := (fb.norm.getD id) y
  (fb.activation.getD id) y

/-- The residual block with 2-D convolution layers (`ResBlock`): its
fields are the attributes assigned in `__init__`. -/
structure ResBlock where
  act : T4 → T4
  res_type : String
  conv1 : Conv2dBlock
  conv2 : Conv2dBlock

/-- `ResBlock.__init__`, with the construction of each sub-block traced
(the returned list names, in statement order, the sub-block primitives
constructed before the constructor returned or failed).  Mirrors the
source: assign `self.act`; assert the residual type is `basic` or
`bottleneck`, failing with the formatted message otherwise; assign
`self.res_type`; build `self.conv1` as a 3×3 stride-1 padding-1
convolution block with the activation and the normalization; build
`self.conv2` identically but with `activation=None`.  The weights and
biases of the two convolutions and the normalization factory `bn` come
from the external framework. -/
def ResBlock.initTr (in_channels : ℕ) (activation : T4 → T4)
    (norm_type : Option String) (res_type : String)
    (w1 : ConvWeight) (b1 : List ℤ) (w2 : ConvWeight) (b2 : List ℤ)
    (bn : String → ℕ → T4 → T4) : List String × Except String ResBlock :=
  if res_type ∈ ["basic", "bottleneck"] then
    (["conv2d_block", "conv2d_block"],
     Except.ok
       { act := activation
         res_type := res_type
         conv1 := conv2d_block in_channels in_channels 3 1 1 (some activation) norm_type w1 b1 bn
         conv2 := conv2d_block in_channels in_channels 3 1 1 none norm_type w2 b2 bn })
  else
    ([], Except.error
      ("residual type only support basic and bottleneck, not:" ++ res_type))

/-- `ResBlock.__init__` seen only through its result. -/
def ResBlock.init (in_channels : ℕ) (activation : T4 → T4)
    (norm_type : Option String) (res_type : String)
    (w1 : ConvWeight) (b1 : List ℤ) (w2 : ConvWeight) (b2 : List ℤ)
    (bn : String → ℕ → T4 → T4) : Except String ResBlock :=
  (ResBlock.initTr in_channels activation norm_type res_type w1 b1 w2 b2 bn).2

/-- `ResBlock.forward` translated statement by statement; the first
component of the result is the state of `self` when the method returns
(no statement of the body assigns to `self`). -/
def ResBlock.forwardS (self : ResBlock) (x : T4) : ResBlock × T4 :=
  let residual := x
  let x1 := self.conv1.apply x
  let x2 := self.conv2.apply x1
  let x3 := self.act (add4 x2 residual)
  (self, x3)

/-- `ResBlock.forward`: the returned tensor. -/
def ResBlock.forward (self : ResBlock) (x : T4) : T4 :=
  (self.forwardS x).2

/-- The residual block with two fully-connected blocks (`ResFCBlock`). -/
structure ResFCBlock where
  act : Mat → Mat
  fc1 : FcBlock
  fc2 : FcBlock

/-- `ResFCBlock.__init__`: assign `self.act`; build `self.fc1` with the
activation and the normalization; build `self.fc2` with
`activation=None` and the normalization.  No validation is performed;
the constructor is modelled with the same `Except` interface as
`ResBlock.init` and always succeeds. -/
def ResFCBlock.init (in_channels : ℕ) (activation : Mat → Mat)
    (norm_type : Option String)
    (w1 : Mat) (b1 : List ℤ) (w2 : Mat) (b2 : List ℤ)
    (bn : String → ℕ → Mat → Mat) : Except String ResFCBlock :=
  Except.ok
    { act := activation
      fc1 := fc_block in_channels in_channels (some activation) norm_type w1 b1 bn
      fc2 := fc_block in_channels in_channels none norm_type w2 b2 bn }

/-- `ResFCBlock.forward` translated statement by statement. -/
def ResFCBlock.forwardS (self : ResFCBlock) (x : Mat) : ResFCBlock × Mat :=
  let residual := x
  let x1 := self.fc1.apply x
  let x2 := self.fc2.apply x1
  let x3 := self.act (add2 x2 residual)
  (self, x3)

/-- `ResFCBlock.forward`: the returned tensor. -/
def ResFCBlock.forward (self : ResFCBlock) (x : Mat) : Mat :=
  (self.forwardS x).2

/-- The second fully-connected residual block variant (`ResFCBlock2`):
it additionally owns a block-level normalization operator. -/
structure ResFCBlock2 where
  act : Mat → Mat
  fc1 : FcBlock
  fc2 : FcBlock
  norm : Mat → Mat

/-- `ResFCBlock2.__init__`: assign `self.act`; build `self.fc1` with the
activation and `norm_type=None`; build `self.fc2` with
`activation=None` and `norm_type=None`; build `self.norm` by calling
the normalization factory on the norm type and the channel count.  No
validation is performed; always succeeds. -/
def ResFCBlock2.init (in_channels : ℕ) (activation : Mat → Mat)
    (norm_type : String)
    (w1 : Mat) (b1 : List ℤ) (w2 : Mat) (b2 : List ℤ)
    (bn : String → ℕ → Mat → Mat) : Except String ResFCBlock2 :=
  Except.ok
    { act := activation
      fc1 := fc_block in_channels in_channels (some activation) none w1 b1 bn
      fc2 := fc_block in_channels in_channels none none w2 b2 bn
      norm := bn norm_type in_channels }

/-- `ResFCBlock2.forward` translated statement by statement: the
normalization, not the activation, is applied to the sum. -/
def ResFCBlock2.forwardS (self : ResFCBlock2) (x : Mat) : ResFCBlock2 × Mat :=
  let residual := x
  let x1 := self.fc1.apply x
  let x2 := self.fc2.apply x1
  let x3 := self.norm (add2 x2 residual)
  (self, x3)

/-- `ResFCBlock2.forward`: the returned tensor. -/
def ResFCBlock2.forward (self : ResFCBlock2) (x : Mat) : Mat :=
  (self.forwardS x).2

/-- Concrete sample instances (identity activation and normalization,
tiny weights) used by the witnesses of the theorems below. -/
def rbW : ResBlock :=
  { act := id, res_type := "basic"
    conv1 := conv2d_block 1 1 3 1 1 (some id) none [] [] (fun _ _ => id)
    conv2 := conv2d_block 1 1 3 1 1 none none [] [] (fun _ _ => id) }

def rbB : ResBlock :=
  { act := id, res_type := "bottleneck"
    conv1 := conv2d_block 1 1 3 1 1 (some id) none [] [] (fun _ _ => id)
    conv2 := conv2d_block 1 1 3 1 1 none none [] [] (fun _ _ => id) }

def fcW : ResFCBlock :=
  { act := id
    fc1 := fc_block 1 1 (some id) none [[2]] [0] (fun _ _ => id)
    fc2 := fc_block 1 1 none none [[3]] [0] (fun _ _ => id) }

def fcW2 : ResFCBlock2 :=
  { act := id
    fc1 := fc_block 1 1 (some id) none [[2]] [0] (fun _ _ => id)
    fc2 := fc_block 1 1 none none [[3]] [0] (fun _ _ => id)
    norm := (fun _ _ => id) "LN" 1 }

/-- `zipWith` of two lists of equal length `n`, applied to elements
satisfying pointwise predicates, has length `n` and elementwise results
satisfying the image predicate. -/
lemma zipWith_preserve {α β γ : Type} (f : α → β → γ) (P : α → Prop)
    (Q : β → Prop) (R : γ → Prop) (hf : ∀ a b, P a → Q b → R (f a b)) :
    ∀ (l1 : List α) (l2 : List β) (n : ℕ), l1.length = n → l2.length = n →
      (∀ a ∈ l1, P a) → (∀ b ∈ l2, Q b) →
      (List.zipWith f l1 l2).length = n ∧ ∀ c ∈ List.zipWith f l1 l2, R c := by
  intro l1
  induction l1 with
  | nil =>
      intro l2 n h1 _ _ _
      simp only [List.length_nil] at h1
      subst h1
      simp
  | cons a l1 ih =>
      intro l2 n h1 h2 hP hQ
      cases l2 with
      | nil => simp at h1 h2; omega
      | cons b l2 =>
          cases n with
          | zero => simp at h1
          | succ n =>
              have hr := ih l2 n (by simpa using h1) (by simpa using h2)
                (fun u hu => hP u (List.mem_cons_of_mem _ hu))
                (fun v hv => hQ v (List.mem_cons_of_mem _ hv))
              refine ⟨by simp [hr.1], ?_⟩
              intro c hc
              rcases List.mem_cons.mp hc with h | h
              · subst h
                exact hf a b (hP a (List.mem_cons_self _ _))
                  (hQ b (List.mem_cons_self _ _))
              · exact hr.2 c h

/-- Elementwise addition of equally shaped matrices preserves the shape. -/
lemma add2_shape {a b : Mat} {h w : ℕ} (ha : Mat.hasShape a h w)
    (hb : Mat.hasShape b h w) : Mat.hasShape (add2 a b) h w := by
  unfold Mat.hasShape add2
  exact zipWith_preserve (fun r s => List.zipWith (· + ·) r s)
    (fun r => r.length = w) (fun s => s.length = w) (fun t => t.length = w)
    (fun r s hr hs => by simp [List.length_zipWith, hr, hs])
    a b h ha.1 hb.1 ha.2 hb.2

/-- Elementwise addition of equally shaped channel stacks preserves the shape. -/
lemma add3_shape {p q : T3} {c h w : ℕ} (hp : T3.hasShape p c h w)
    (hq : T3.hasShape q c h w) : T3.hasShape (List.zipWith add2 p q) c h w := by
  unfold T3.hasShape
  exact zipWith_preserve add2 (fun m => Mat.hasShape m h w)
    (fun m => Mat.hasShape m h w) (fun m => Mat.hasShape m h w)
    (fun _ _ hm hn => add2_shape hm hn) p q c hp.1 hq.1 hp.2 hq.2

/-- Elementwise addition of equally shaped 4-D tensors preserves the shape. -/
lemma add4_shape {a b : T4} {B c h w : ℕ} (ha : T4.hasShape a B c h w)
    (hb : T4.hasShape b B c h w) : T4.hasShape (add4 a b) B c h w := by
  unfold T4.hasShape add4
  exact zipWith_preserve (fun p q => List.zipWith add2 p q)
    (fun s => T3.hasShape s c h w) (fun s => T3.hasShape s c h w)
    (fun s => T3.hasShape s c h w) (fun _ _ hp hq => add3_shape hp hq)
    a b B ha.1 hb.1 ha.2 hb.2

/-- The output spatial size of a 3×3 stride-1 padding-1 convolution
equals the input size: `(H + 2·1 - 3) / 1 + 1 = H`. -/
lemma outSize_3_1_1 (H : ℕ) :
    (((H : ℤ) + 2 * ((1 : ℕ) : ℤ) - ((3 : ℕ) : ℤ)) / ((1 : ℕ) : ℤ) + 1).toNat = H := by
  push_cast
  rw [Int.ediv_one]
  omega

/-- A 3×3 convolution with stride 1 and padding 1 on a `C × H × W`
sample with `C` output channels yields a `C × H × W` sample. -/
lemma conv2dSample_shape {s : T3} {C H W : ℕ} (hs : T3.hasShape s C H W)
    (w : ConvWeight) (bias : List ℤ) :
    T3.hasShape (conv2dSample 3 1 1 C w bias s) C H W := by
  obtain ⟨hlen, hmem⟩ := hs
  refine ⟨by simp [conv2dSample], ?_⟩
  intro m hm
  simp only [conv2dSample, List.mem_map, List.mem_range] at hm
  obtain ⟨o, ho, rfl⟩ := hm
  cases s with
  | nil => simp only [List.length_nil] at hlen; exact absurd ho (by omega)
  | cons ch rest =>
      have hch : Mat.hasShape ch H W := hmem ch (List.mem_cons_self _ _)
      have hH : ((ch :: rest).headD []).length = H := by simpa using hch.1
      constructor
      · simp only [List.length_map, List.length_range, hH]
        exact outSize_3_1_1 H
      · intro r hr
        simp only [List.mem_map, List.mem_range] at hr
        obtain ⟨i, hi, rfl⟩ := hr
        simp only [List.length_map, List.length_range]
        rw [hH, outSize_3_1_1 H] at hi
        -- a row exists, so `H > 0` and the first row of `ch` has length `W`
        have hHpos : 0 < H := by omega
        cases ch with
        | nil =>
            have h0 : (0 : ℕ) = H := by simpa using hch.1
            omega
        | cons r0 rr =>
            have hr0 : r0.length = W := hch.2 r0 (List.mem_cons_self _ _)
            simp only [List.headD_cons, hr0]
            exact outSize_3_1_1 W

/-- The batched 3×3 stride-1 padding-1 convolution with `C` output
channels preserves the `[B, C, H, W]` shape. -/
lemma conv2d_shape {x : T4} {B C H W : ℕ} (hx : T4.hasShape x B C H W)
    (w : ConvWeight) (bias : List ℤ) :
    T4.hasShape (conv2d 3 1 1 C w bias x) B C H W := by
  refine ⟨by simp [conv2d, hx.1], ?_⟩
  intro s hs
  simp only [conv2d, List.mem_map] at hs
  obtain ⟨t, ht, rfl⟩ := hs
  exact conv2dSample_shape (hx.2 t ht) w bias

/-- The linear transform with `C` output features maps a batch of `B`
rows to a `B × C` matrix. -/
lemma linear_shape {x : Mat} {B : ℕ} (C : ℕ) (hx : x.length = B)
    (w : Mat) (bias : List ℤ) : Mat.hasShape (linear C w bias x) B C := by
  refine ⟨by simp [linear, hx], ?_⟩
  intro r hr
  simp only [linear, List.mem_map] at hr
  obtain ⟨row, _, rfl⟩ := hr
  simp

/-- C1: for every input tensor `x`, the forward pass of a basic `ResBlock`
computes `act(conv2(conv1(x)) + x)`, where the first convolution block
applies the normalization and the activation, the second applies the
normalization but suppresses the activation; with the normalization and
the activation replaced by identity operators the output equals
`conv2(conv1(x)) + x` exactly. -/
theorem resblock_forward_formula (C : ℕ) (act : T4 → T4) (nt : Option String)
    (w1 : ConvWeight) (b1 : List ℤ) (w2 : ConvWeight) (b2 : List ℤ)
    (bn : String → ℕ → T4 → T4) (b : ResBlock)
    (h : ResBlock.init C act nt "basic" w1 b1 w2 b2 bn = Except.ok b) :
    b.conv1.activation = some act ∧
    b.conv1.norm = nt.map (fun t => bn t C) ∧
    b.conv2.activation = none ∧
    b.conv2.norm = nt.map (fun t => bn t C) ∧
    (∀ x, b.forward x =
      act (add4
        ((nt.map (fun t => bn t C)).getD id
          (conv2d 3 1 1 C w2 b2
            (act ((nt.map (fun t => bn t C)).getD id
              (conv2d 3 1 1 C w1 b1 x))))) x)) ∧
    (act = id → (∀ t c, bn t c = id) →
      ∀ x, b.forward x = add4 (conv2d 3 1 1 C w2 b2 (conv2d 3 1 1 C w1 b1 x)) x) := by
  simp only [ResBlock.init, ResBlock.initTr, List.mem_cons, List.mem_singleton,
    if_pos (Or.inl rfl)] at h
  cases h
  refine ⟨rfl, rfl, rfl, rfl, fun x => rfl, fun hact hbn x => ?_⟩
  subst hact
  cases nt with
  | none =>
      simp [ResBlock.forward, ResBlock.forwardS, Conv2dBlock.apply, conv2d_block]
  | some t =>
      simp [ResBlock.forward, ResBlock.forwardS, Conv2dBlock.apply, conv2d_block, hbn]

theorem resblock_forward_formula_witness :
    ResBlock.init 1 id none "basic" [] [] [] [] (fun _ _ => id) = Except.ok rbW ∧
    rbW.forward [[[[3]]]] =
      add4 (conv2d 3 1 1 1 [] [] (conv2d 3 1 1 1 [] [] [[[[3]]]])) [[[[3]]]] :=
  ⟨by simp [ResBlock.init, ResBlock.initTr, rbW],
   (resblock_forward_formula 1 id none [] [] [] [] (fun _ _ => id) rbW
      (by simp [ResBlock.init, ResBlock.initTr, rbW])).2.2.2.2.2
     rfl (fun _ _ => rfl) [[[[3]]]]⟩

/-- C2: constructing a `ResBlock` with a residual-type tag outside
`basic`/`bottleneck` fails at construction time with a configuration
error whose message names the offending value; for tags in that set
construction succeeds; and the `ResFCBlock` and `ResFCBlock2`
constructors perform no validation of their own (they always succeed). -/
theorem resblock_res_type_validation :
    (∀ (C : ℕ) (act : T4 → T4) (nt : Option String) (rt : String)
        (w1 : ConvWeight) (b1 : List ℤ) (w2 : ConvWeight) (b2 : List ℤ)
        (bn : String → ℕ → T4 → T4),
      rt ∉ (["basic", "bottleneck"] : List String) →
        ResBlock.init C act nt rt w1 b1 w2 b2 bn =
          Except.error
            ("residual type only support basic and bottleneck, not:" ++ rt)) ∧
    (∀ (C : ℕ) (act : T4 → T4) (nt : Option String) (rt : String)
        (w1 : ConvWeight) (b1 : List ℤ) (w2 : ConvWeight) (b2 : List ℤ)
        (bn : String → ℕ → T4 → T4),
      rt ∈ (["basic", "bottleneck"] : List String) →
        ∃ b, ResBlock.init C act nt rt w1 b1 w2 b2 bn = Except.ok b) ∧
    (∀ (C : ℕ) (act : Mat → Mat) (nt : Option String)
        (w1 : Mat) (b1 : List ℤ) (w2 : Mat) (b2 : List ℤ)
        (bn : String → ℕ → Mat → Mat),
      ∃ b, ResFCBlock.init C act nt w1 b1 w2 b2 bn = Except.ok b) ∧
    (∀ (C : ℕ) (act : Mat → Mat) (nt : String)
        (w1 : Mat) (b1 : List ℤ) (w2 : Mat) (b2 : List ℤ)
        (bn : String → ℕ → Mat → Mat),
      ∃ b, ResFCBlock2.init C act nt w1 b1 w2 b2 bn = Except.ok b) := by
  refine ⟨fun C act nt rt w1 b1 w2 b2 bn hrt => ?_,
          fun C act nt rt w1 b1 w2 b2 bn hrt => ?_,
          fun C act nt w1 b1 w2 b2 bn => ⟨_, rfl⟩,
          fun C act nt w1 b1 w2 b2 bn => ⟨_, rfl⟩⟩
  · have h2 : ¬(rt = "basic" ∨ rt = "bottleneck") := by simpa using hrt
    simp [ResBlock.init, ResBlock.initTr, h2]
  · rcases (by simpa using hrt : rt = "basic" ∨ rt = "bottleneck") with h | h <;>
      subst h <;> exact ⟨_, rfl⟩

theorem resblock_res_type_validation_witness :
    ResBlock.init 1 id none "invalid" [] [] [] [] (fun _ _ => id) =
      Except.error "residual type only support basic and bottleneck, not:invalid" :=
  resblock_res_type_validation.1 1 id none "invalid" [] [] [] [] (fun _ _ => id)
    (by decide)

/-- C3: for every input tensor `x`, the forward pass of `ResFCBlock2`
computes `norm(fc2(fc1(x)) + x)` exactly: both internal linear
transforms are built with normalization disabled (the first with the
activation, the second without), the separately built block-level
normalization is applied once to the skip-connection sum, and no
activation follows it. -/
theorem resfcblock2_forward_formula (C : ℕ) (act : Mat → Mat) (nt : String)
    (w1 : Mat) (b1 : List ℤ) (w2 : Mat) (b2 : List ℤ)
    (bn : String → ℕ → Mat → Mat) (b : ResFCBlock2)
    (h : ResFCBlock2.init C act nt w1 b1 w2 b2 bn = Except.ok b) :
    b.fc1.norm = none ∧
    b.fc1.activation = some act ∧
    b.fc2.norm = none ∧
    b.fc2.activation = none ∧
    b.norm = bn nt C ∧
    ∀ x, b.forward x =
      bn nt C (add2 (linear C w2 b2 (act (linear C w1 b1 x))) x) := by
  cases h
  exact ⟨rfl, rfl, rfl, rfl, rfl, fun x => rfl⟩

theorem resfcblock2_forward_formula_witness :
    ResFCBlock2.forward fcW2 [[1]] =
      id (add2 (linear 1 [[3]] [0] (id (linear 1 [[2]] [0] [[1]]))) [[1]]) :=
  (resfcblock2_forward_formula 1 id "LN" [[2]] [0] [[3]] [0]
    (fun _ _ => id) fcW2 rfl).2.2.2.2.2 [[1]]

/-- C4: for every input tensor `x`, the forward pass of `ResFCBlock`
computes `act(fc2(fc1(x)) + x)`: the first linear-transform block
applies the normalization and the activation, the second applies the
normalization with the activation suppressed, the saved input is added
elementwise and the activation is applied to the sum; with identity
activation and identity normalization the output equals
`fc2(fc1(x)) + x`. -/
theorem resfcblock_forward_formula (C : ℕ) (act : Mat → Mat) (nt : Option String)
    (w1 : Mat) (b1 : List ℤ) (w2 : Mat) (b2 : List ℤ)
    (bn : String → ℕ → Mat → Mat) (b : ResFCBlock)
    (h : ResFCBlock.init C act nt w1 b1 w2 b2 bn = Except.ok b) :
    b.fc1.activation = some act ∧
    b.fc1.norm = nt.map (fun t => bn t C) ∧
    b.fc2.activation = none ∧
    b.fc2.norm = nt.map (fun t => bn t C) ∧
    (∀ x, b.forward x =
      act (add2
        ((nt.map (fun t => bn t C)).getD id
          (linear C w2 b2
            (act ((nt.map (fun t => bn t C)).getD id
              (linear C w1 b1 x))))) x)) ∧
    (act = id → (∀ t c, bn t c = id) →
      ∀ x, b.forward x = add2 (linear C w2 b2 (linear C w1 b1 x)) x) := by
  cases h
  refine ⟨rfl, rfl, rfl, rfl, fun x => rfl, fun hact hbn x => ?_⟩
  subst hact
  cases nt with
  | none =>
      simp [ResFCBlock.forward, ResFCBlock.forwardS, FcBlock.apply, fc_block]
  | some t =>
      simp [ResFCBlock.forward, ResFCBlock.forwardS, FcBlock.apply, fc_block, hbn]

theorem resfcblock_forward_formula_witness :
    ResFCBlock.forward fcW [[1]] =
      add2 (linear 1 [[3]] [0] (linear 1 [[2]] [0] [[1]])) [[1]] :=
  (resfcblock_forward_formula 1 id none [[2]] [0] [[3]] [0]
    (fun _ _ => id) fcW rfl).2.2.2.2.2 rfl (fun _ _ => rfl) [[1]]

/-- C5: a `ResBlock` constructed with `res_type="bottleneck"` builds
exactly the same sub-blocks as one constructed with `res_type="basic"`
from the same remaining arguments, and computes exactly the same
forward function: the stored tag is never consulted after validation. -/
theorem bottleneck_equals_basic (C : ℕ) (act : T4 → T4) (nt : Option String)
    (w1 : ConvWeight) (b1 : List ℤ) (w2 : ConvWeight) (b2 : List ℤ)
    (bn : String → ℕ → T4 → T4) (bb bbot : ResBlock)
    (hb : ResBlock.init C act nt "basic" w1 b1 w2 b2 bn = Except.ok bb)
    (hbot : ResBlock.init C act nt "bottleneck" w1 b1 w2 b2 bn = Except.ok bbot) :
    bbot.conv1 = bb.conv1 ∧ bbot.conv2 = bb.conv2 ∧ bbot.act = bb.act ∧
    ∀ x, bbot.forward x = bb.forward x := by
  simp only [ResBlock.init, ResBlock.initTr, List.mem_cons, List.mem_singleton,
    if_pos (Or.inl rfl)] at hb
  simp only [ResBlock.init, ResBlock.initTr, List.mem_cons, List.mem_singleton,
    if_pos (Or.inr (Or.inl rfl))] at hbot
  cases hb
  cases hbot
  exact ⟨rfl, rfl, rfl, fun x => rfl⟩

theorem bottleneck_equals_basic_witness :
    ResBlock.forward rbB [[[[7]]]] = ResBlock.forward rbW [[[[7]]]] :=
  (bottleneck_equals_basic 1 id none [] [] [] [] (fun _ _ => id) rbW rbB
    (by simp [ResBlock.init, ResBlock.initTr, rbW])
    (by simp [ResBlock.init, ResBlock.initTr, rbB])).2.2.2 [[[[7]]]]

/-- C8: the forward pass of each of the three block types leaves every
field of the block unchanged (the sub-block primitives with their
weight parameters, the activation, the normalization, the residual-type
tag); in this pure embedding its only result is the output tensor. -/
theorem forward_frame (rb : ResBlock) (x4 : T4) (fb : ResFCBlock)
    (fb2 : ResFCBlock2) (x2 : Mat) :
    (rb.forwardS x4).1.act = rb.act ∧
    (rb.forwardS x4).1.res_type = rb.res_type ∧
    (rb.forwardS x4).1.conv1 = rb.conv1 ∧
    (rb.forwardS x4).1.conv2 = rb.conv2 ∧
    (rb.forwardS x4).1.conv1.weight = rb.conv1.weight ∧
    (rb.forwardS x4).1.conv2.weight = rb.conv2.weight ∧
    (fb.forwardS x2).1 = fb ∧
    (fb2.forwardS x2).1 = fb2 :=
  ⟨rfl, rfl, rfl, rfl, rfl, rfl, rfl, rfl⟩

/-- C9: the forward pass is deterministic: it is a function of the
input tensor and the owned parameters only (two blocks with equal
sub-blocks and equal activation — the residual-type tag may even
differ — produce equal outputs on equal inputs), and a prior invocation
never changes the result of a later one. -/
theorem forward_deterministic :
    (∀ (b1 b2 : ResBlock) (x : T4),
      b1.conv1 = b2.conv1 → b1.conv2 = b2.conv2 → b1.act = b2.act →
        b1.forward x = b2.forward x) ∧
    (∀ (b1 b2 : ResFCBlock) (x : Mat),
      b1.fc1 = b2.fc1 → b1.fc2 = b2.fc2 → b1.act = b2.act →
        b1.forward x = b2.forward x) ∧
    (∀ (b1 b2 : ResFCBlock2) (x : Mat),
      b1.fc1 = b2.fc1 → b1.fc2 = b2.fc2 → b1.act = b2.act → b1.norm = b2.norm →
        b1.forward x = b2.forward x) ∧
    (∀ (b : ResBlock) (y x : T4), ((b.forwardS y).1).forward x = b.forward x) ∧
    (∀ (b : ResFCBlock) (y x : Mat), ((b.forwardS y).1).forward x = b.forward x) ∧
    (∀ (b : ResFCBlock2) (y x : Mat), ((b.forwardS y).1).forward x = b.forward x) := by
  refine ⟨fun b1 b2 x h1 h2 h3 => ?_, fun b1 b2 x h1 h2 h3 => ?_,
          fun b1 b2 x h1 h2 h3 h4 => ?_,
          fun b y x => rfl, fun b y x => rfl, fun b y x => rfl⟩
  · simp [ResBlock.forward, ResBlock.forwardS, h1, h2, h3]
  · simp [ResFCBlock.forward, ResFCBlock.forwardS, h1, h2, h3]
  · simp [ResFCBlock2.forward, ResFCBlock2.forwardS, h1, h2, h3, h4]

theorem forward_deterministic_witness :
    ResBlock.forward
        { act := id, res_type := "basic"
          conv1 := conv2d_block 1 1 3 1 1 (some id) none [] [] (fun _ _ => id)
          conv2 := conv2d_block 1 1 3 1 1 none none [] [] (fun _ _ => id) }
        [[[[2]]]] =
      ResBlock.forward
        { act := id, res_type := "bottleneck"
          conv1 := conv2d_block 1 1 3 1 1 (some id) none [] [] (fun _ _ => id)
          conv2 := conv2d_block 1 1 3 1 1 none none [] [] (fun _ _ => id) }
        [[[[2]]]] :=
  forward_deterministic.1 _ _ [[[[2]]]] rfl rfl rfl

/-- C10: `ResBlock` construction is atomic with respect to validation:
when the residual-type tag is invalid the constructor fails before
either convolution sub-block is constructed (the construction trace is
empty), whereas a valid tag yields exactly the two convolution
sub-block constructions. -/
theorem init_validation_atomic (C : ℕ) (act : T4 → T4) (nt : Option String)
    (rt : String) (w1 : ConvWeight) (b1 : List ℤ) (w2 : ConvWeight)
    (b2 : List ℤ) (bn : String → ℕ → T4 → T4) :
    (rt ∉ (["basic", "bottleneck"] : List String) →
      (ResBlock.initTr C act nt rt w1 b1 w2 b2 bn).1 = [] ∧
      (ResBlock.initTr C act nt rt w1 b1 w2 b2 bn).2 =
        Except.error
          ("residual type only support basic and bottleneck, not:" ++ rt)) ∧
    (rt ∈ (["basic", "bottleneck"] : List String) →
      (ResBlock.initTr C act nt rt w1 b1 w2 b2 bn).1 =
        ["conv2d_block", "conv2d_block"]) := by
  constructor
  · intro hrt
    have h2 : ¬(rt = "basic" ∨ rt = "bottleneck") := by simpa using hrt
    simp [ResBlock.initTr, h2]
  · intro hrt
    rcases (by simpa using hrt : rt = "basic" ∨ rt = "bottleneck") with h | h <;>
      subst h <;> rfl

theorem init_validation_atomic_witness :
    (ResBlock.initTr 1 id none "invalid" [] [] [] [] (fun _ _ => id)).1 = [] ∧
    (ResBlock.initTr 1 id none "basic" [] [] [] [] (fun _ _ => id)).1 =
      ["conv2d_block", "conv2d_block"] :=
  ⟨((init_validation_atomic 1 id none "invalid" [] [] [] []
      (fun _ _ => id)).1 (by decide)).1,
   (init_validation_atomic 1 id none "basic" [] [] [] []
      (fun _ _ => id)).2 (by decide)⟩

/-- C6: a basic `ResBlock` built with channel count `C` maps a tensor
of shape `[B, C, H, W]` to a tensor of the identical shape, provided
the activation and the normalization operators preserve that shape:
both internal convolutions are 3×3 with stride 1, padding 1 and `C`
output channels, so the skip-connection addition is shape-compatible. -/
theorem resblock_shape_preserved (B C H W : ℕ) (act : T4 → T4) (nt : Option String)
    (w1 : ConvWeight) (b1 : List ℤ) (w2 : ConvWeight) (b2 : List ℤ)
    (bn : String → ℕ → T4 → T4) (b : ResBlock)
    (h : ResBlock.init C act nt "basic" w1 b1 w2 b2 bn = Except.ok b)
    (hact : ∀ t : T4, T4.hasShape t B C H W → T4.hasShape (act t) B C H W)
    (hbn : ∀ (u : String) (c : ℕ) (t : T4),
      T4.hasShape t B C H W → T4.hasShape (bn u c t) B C H W)
    (x : T4) (hx : T4.hasShape x B C H W) :
    T4.hasShape (b.forward x) B C H W := by
  simp only [ResBlock.init, ResBlock.initTr, List.mem_cons, List.mem_singleton,
    if_pos (Or.inl rfl)] at h
  cases h
  have hnorm : ∀ t : T4, T4.hasShape t B C H W →
      T4.hasShape (((nt.map fun u => bn u C).getD id) t) B C H W := by
    intro t ht
    cases nt with
    | none => simpa using ht
    | some u => simpa using hbn u C t ht
  simp only [ResBlock.forward, ResBlock.forwardS, Conv2dBlock.apply, conv2d_block]
  have h1 : T4.hasShape
      (act ((nt.map fun u => bn u C).getD id (conv2d 3 1 1 C w1 b1 x))) B C H W :=
    hact _ (hnorm _ (conv2d_shape hx w1 b1))
  have h2 : T4.hasShape
      ((nt.map fun u => bn u C).getD id (conv2d 3 1 1 C w2 b2
        (act ((nt.map fun u => bn u C).getD id (conv2d 3 1 1 C w1 b1 x))))) B C H W :=
    hnorm _ (conv2d_shape h1 w2 b2)
  exact hact _ (add4_shape h2 hx)

theorem resblock_shape_preserved_witness :
    T4.hasShape (ResBlock.forward rbW [[[[5]]]]) 1 1 1 1 :=
  resblock_shape_preserved 1 1 1 1 id none [] [] [] [] (fun _ _ => id) rbW
    (by simp [ResBlock.init, ResBlock.initTr, rbW])
    (fun t ht => ht) (fun u c t ht => ht) [[[[5]]]] (by decide)

/-- C7: a fully-connected residual block of either variant built with
channel count `C` maps a tensor of shape `[B, C]` to a tensor of the
identical shape, provided the activation and the normalization
operators preserve that shape: both internal linear transforms map `C`
features to `C` features. -/
theorem resfcblock_shape_preserved (B C : ℕ) (act : Mat → Mat) (nt : Option String)
    (w1 : Mat) (b1 : List ℤ) (w2 : Mat) (b2 : List ℤ)
    (bn : String → ℕ → Mat → Mat) (ba : ResFCBlock)
    (ha : ResFCBlock.init C act nt w1 b1 w2 b2 bn = Except.ok ba)
    (nt2 : String) (bb : ResFCBlock2)
    (hb : ResFCBlock2.init C act nt2 w1 b1 w2 b2 bn = Except.ok bb)
    (hact : ∀ m : Mat, Mat.hasShape m B C → Mat.hasShape (act m) B C)
    (hbn : ∀ (u : String) (c : ℕ) (m : Mat),
      Mat.hasShape m B C → Mat.hasShape (bn u c m) B C)
    (x : Mat) (hx : Mat.hasShape x B C) :
    Mat.hasShape (ba.forward x) B C ∧ Mat.hasShape (bb.forward x) B C := by
  cases ha
  cases hb
  have hnorm : ∀ m : Mat, Mat.hasShape m B C →
      Mat.hasShape (((nt.map fun u => bn u C).getD id) m) B C := by
    intro m hm
    cases nt with
    | none => simpa using hm
    | some u => simpa using hbn u C m hm
  constructor
  · simp only [ResFCBlock.forward, ResFCBlock.forwardS, FcBlock.apply, fc_block]
    have h1 : Mat.hasShape
        (act ((nt.map fun u => bn u C).getD id (linear C w1 b1 x))) B C :=
      hact _ (hnorm _ (linear_shape C hx.1 w1 b1))
    have h2 : Mat.hasShape
        ((nt.map fun u => bn u C).getD id (linear C w2 b2
          (act ((nt.map fun u => bn u C).getD id (linear C w1 b1 x))))) B C :=
      hnorm _ (linear_shape C h1.1 w2 b2)
    exact hact _ (add2_shape h2 hx)
  · simp only [ResFCBlock2.forward, ResFCBlock2.forwardS, FcBlock.apply, fc_block]
    have h1 : Mat.hasShape (act (linear C w1 b1 x)) B C :=
      hact _ (linear_shape C hx.1 w1 b1)
    have h2 : Mat.hasShape (linear C w2 b2 (act (linear C w1 b1 x))) B C :=
      linear_shape C h1.1 w2 b2
    exact hbn nt2 C _ (add2_shape h2 hx)

theorem resfcblock_shape_preserved_witness :
    Mat.hasShape (ResFCBlock.forward fcW [[4]]) 1 1 ∧
    Mat.hasShape (ResFCBlock2.forward fcW2 [[4]]) 1 1 :=
  resfcblock_shape_preserved 1 1 id none [[2]] [0] [[3]] [0] (fun _ _ => id)
    fcW rfl "LN" fcW2 rfl (fun m hm => hm) (fun u c m hm => hm) [[4]] (by decide)

end ResBlockSpec
